import Mathlib

/-!
Verification of the FocusFlow gamification core (`src/backend`).

Shallow embedding conventions:
* Python ints are modelled as `ℤ` (or `ℕ` where the source keeps them non-negative).
* Python float formulas are modelled in exact arithmetic over `ℚ`:
  `sqrt(xp) * 0.2` is `√xp / 5` and `((L-1)/0.2)**2` is `(5*(L-1))^2 = 25*(L-1)^2`,
  with `int(...)` on non-negative values being the floor.  On `ℕ`,
  `⌊√n / 5⌋ = Nat.sqrt n / 5`.
* `datetime` values are minutes since the Unix epoch (`ℤ`); a `date` is a day
  index (minutes divided by 1440, floor); 1970-01-01 is a Thursday, so Python's
  `weekday()` (Monday = 0) of day `d` is `(d + 3) mod 7`.
* Fallible operations return explicit result types; randomness (`random.choices`,
  `random.choice`) is an injected parameter (a drawn rarity and a pick index).
-/

namespace FocusFlow

/-- Activity categories (`models.CategoryEnum`). -/
inductive Category
  | career
  | health
  | leisure
  | chores
  | social
  deriving DecidableEq, Repr

/-- Goal timeframes (`models.TimeframeEnum`). -/
inductive Timeframe
  | daily
  | weekly
  | monthly
  deriving DecidableEq, Repr

/-- Goal types (`models.GoalTypeEnum`). -/
inductive GoalType
  | target
  | limit
  deriving DecidableEq, Repr

/-- Python's `x or 30` applied to a nullable duration: both `None` and `0`
are falsy, so both fall back to 30 (`nlp_parser.py` line 115,
`routes/activities.py` line 107, `gamification.py` lines 456 and 468). -/
def pyOr30 : Option ℕ → ℕ
  | none => 30
  | some n => if n = 0 then 30 else n

/-- `BASE_SCORES` from `nlp_parser.py` lines 24-30. -/
def baseScore : Category → ℚ
  | .career => 10
  | .health => 8
  | .social => 5
  | .chores => 4
  | .leisure => -5

/-- Round-half-to-even on `ℚ`, the semantics of Python's builtin `round`. -/
def roundHalfEven (q : ℚ) : ℤ :=
  let f := ⌊q⌋
  let r := q - f
  if r < 1/2 then f
  else if 1/2 < r then f + 1
  else if f % 2 = 0 then f else f + 1

/-- Python's `round(x, 2)`. -/
def round2 (q : ℚ) : ℚ := (roundHalfEven (q * 100) : ℚ) / 100

/-- `calculate_weighted_score` (`nlp_parser.py` lines 95-127):
`base * min(durationHours, 4)`, times `1.2 = 6/5` for focused Career/Health,
rounded to two decimals. -/
def calculate_weighted_score (category : Category) (duration_minutes : Option ℕ)
    (is_focus_session : Bool) : ℚ :=
  let base := baseScore category
  let durationHours : ℚ := (pyOr30 duration_minutes : ℚ) / 60
  let durationFactor := min durationHours 4
  let score := base * durationFactor
  let score :=
    if is_focus_session && (category = Category.career || category = Category.health) then
      score * (6/5)
    else score
  round2 score

/-- `calculate_xp_gain` (`gamification.py` lines 16-29):
`0` for non-positive scores, else `max(1, int(score / 10))`. -/
def calculate_xp_gain (productivity_score : ℚ) : ℕ :=
  if productivity_score ≤ 0 then 0
  else max 1 (Int.toNat ⌊productivity_score / 10⌋)

/-- `calculate_level` (`gamification.py` lines 32-51):
`1` for `xp ≤ 0`, else `int(sqrt(xp) * 0.2) + 1 = ⌊√xp / 5⌋ + 1 = Nat.sqrt xp / 5 + 1`. -/
def calculate_level (xp : ℤ) : ℤ :=
  if xp ≤ 0 then 1 else (Nat.sqrt xp.toNat / 5 : ℕ) + 1

/-- `xp_for_level` (`gamification.py` lines 54-67):
`0` for `level ≤ 1`, else `int(((level - 1) / 0.2) ** 2) = 25 * (level - 1)^2`. -/
def xp_for_level (level : ℤ) : ℤ :=
  if level ≤ 1 then 0 else 25 * (level - 1) ^ 2

/-- The per-user progression state touched by the XP ledger
(`models.User.xp`, `models.User.level`). -/
structure UserState where
  xp : ℤ
  level : ℤ
  deriving DecidableEq, Repr

/-- The report returned by `award_xp`. -/
structure AwardResult where
  xp_awarded : ℤ
  total_xp : ℤ
  old_level : ℤ
  new_level : ℤ
  leveled_up : Bool
  deriving DecidableEq, Repr

/-- `award_xp` (`gamification.py` lines 98-126): add the amount to `user.xp`,
recompute the level, and assign `user.level` only when it strictly increased. -/
def award_xp (st : UserState) (xp_amount : ℤ) : UserState × AwardResult :=
  let oldLevel := st.level
  let newXp := st.xp + xp_amount
  let newLevel := calculate_level newXp
  let leveledUp := oldLevel < newLevel
  ({ xp := newXp, level := if leveledUp then newLevel else st.level },
   { xp_awarded := xp_amount, total_xp := newXp, old_level := oldLevel,
     new_level := newLevel, leveled_up := leveledUp })

/-- Day index (days since 1970-01-01) of a UTC instant given in minutes:
Python's `datetime.date()`. -/
def dayOf (t : ℤ) : ℤ := Int.fdiv t 1440

/-- Python's `date.weekday()` (Monday = 0): 1970-01-01 is a Thursday (3). -/
def weekday (d : ℤ) : ℤ := (d + 3).emod 7

/-- Proleptic-Gregorian `(year, month, day)` of a day index
(Howard Hinnant's `civil_from_days`); models Python `date` field access. -/
def civilFromDays (z0 : ℤ) : ℤ × ℤ × ℤ :=
  let z := z0 + 719468
  let era := Int.fdiv z 146097
  let doe := z - era * 146097
  let yoe := Int.fdiv (doe - Int.fdiv doe 1460 + Int.fdiv doe 36524 - Int.fdiv doe 146096) 365
  let y := yoe + era * 400
  let doy := doe - (365 * yoe + Int.fdiv yoe 4 - Int.fdiv yoe 100)
  let mp := Int.fdiv (5 * doy + 2) 153
  let d := doy - Int.fdiv (153 * mp + 2) 5 + 1
  let m := if mp < 10 then mp + 3 else mp - 9
  (if m ≤ 2 then y + 1 else y, m, d)

/-- Day index of a Gregorian date (Hinnant's `days_from_civil`). -/
def daysFromCivil (y0 m d : ℤ) : ℤ :=
  let y := if m ≤ 2 then y0 - 1 else y0
  let era := Int.fdiv y 400
  let yoe := y - era * 400
  let doy := Int.fdiv (153 * (if 2 < m then m - 3 else m + 9) + 2) 5 + d - 1
  let doe := yoe * 365 + Int.fdiv yoe 4 - Int.fdiv yoe 100 + doy
  era * 146097 + doe - 719468

/-- Python's `today.replace(day=1)` as a day index. -/
def firstOfMonthDay (z : ℤ) : ℤ :=
  let c := civilFromDays z
  daysFromCivil c.1 c.2.1 1

/-- Window start used by the read-only progress query
(`routes/goals.py` lines 44-69): local today is `nowUTC - tz_offset`, the
local window start is chosen per timeframe, and the result is converted back
to UTC by adding the offset.  Result in minutes UTC. -/
def readWindowStartUtc (nowUtc tzOffset : ℤ) (tf : Timeframe) : ℤ :=
  let today := dayOf (nowUtc - tzOffset)
  let startDate :=
    match tf with
    | .daily => today
    | .weekly => today - weekday today
    | .monthly => firstOfMonthDay today
  startDate * 1440 + tzOffset

/-- Window start used by the ingestion-time penalty/bonus check
(`gamification.py` lines 414-426): `datetime.utcnow().date()` with no
timezone offset anywhere.  Result in minutes UTC. -/
def ingestWindowStart (nowUtc : ℤ) (tf : Timeframe) : ℤ :=
  let today := dayOf nowUtc
  (match tf with
   | .daily => today
   | .weekly => today - weekday today
   | .monthly => firstOfMonthDay today) * 1440

/-- The window-start computation as the spec words it (spec section 4.4):
local today = nowUTC − offset; daily start = today, weekly start = most
recent Monday ≤ today, monthly start = first of month; converted back to
UTC by adding the offset. -/
def specWindowStartUtc (nowUtc tzOffset : ℤ) (tf : Timeframe) : ℤ :=
  let localToday := dayOf (nowUtc - tzOffset)
  let localStart :=
    match tf with
    | .daily => localToday
    | .weekly => localToday - weekday localToday
    | .monthly => firstOfMonthDay localToday
  localStart * 1440 + tzOffset

/-- One activity row (`models.ActivityLog`), with the fields read by the
goal tracker, badges and the loot economy. -/
structure Activity where
  activity_name : String
  category : Category
  duration_minutes : Option ℕ
  timestamp : ℤ
  productivity_score : ℚ
  is_focus_session : Bool
  deriving DecidableEq, Repr

/-- One goal row (`models.Goal`). -/
structure Goal where
  title : Option String
  category : Category
  target_value : ℕ
  timeframe : Timeframe
  goal_type : GoalType
  deriving DecidableEq, Repr

/-- Substring test on strings, via `List.IsInfix` on the character lists
(Python's `needle in hay`). -/
def strContains (hay needle : String) : Bool :=
  decide (needle.toList <:+: hay.toList)

/-- Strip one leading directive word from a goal title
(`gamification.py` lines 431-435, `routes/goals.py` lines 73-77): the first
matching entry of the fixed list is removed, then the loop breaks. -/
def stripLeadingDirective (t : String) : String :=
  match ["limit ", "reduce ", "avoid ", "stop ", "less ", "target ", "achieve "].find?
      (fun p => p.isPrefixOf t) with
  | some p => t.drop p.length
  | none => t

/-- Title-keyword match (`gamification.py` lines 443-448): title contained in
the name, or name in the title, or any whitespace-separated title word longer
than 3 characters contained in the name.  Both sides lowercased by the caller. -/
def titleKeywordMatch (titleLower nameLower : String) : Bool :=
  strContains nameLower titleLower || strContains titleLower nameLower ||
    ((titleLower.splitOn " ").filter (fun w => w ≠ "")).any
      (fun w => decide (3 < w.length) && strContains nameLower w)

/-- Activity set matched to a goal (`gamification.py` lines 428-454): category
equality and `timestamp ≥ start`, then, when the goal has a title, the
directive word is stripped and the keyword match applied. -/
def matchedActivities (acts : List Activity) (g : Goal) (start : ℤ) : List Activity :=
  let base := acts.filter (fun a =>
    decide (a.category = g.category) && decide (start ≤ a.timestamp))
  match g.title with
  | none => base
  | some t =>
    let titleLower := stripLeadingDirective t.toLower
    base.filter (fun a => titleKeywordMatch titleLower a.activity_name.toLower)

/-- `total_minutes` for a goal (`gamification.py` line 456):
`sum(a.duration_minutes or 30 for a in activities)`. -/
def goalMinutes (acts : List Activity) (g : Goal) (start : ℤ) : ℕ :=
  ((matchedActivities acts g start).map (fun a => pyOr30 a.duration_minutes)).sum

/-- `CategoryEnum.value` (`models.py`). -/
def categoryName : Category → String
  | .career => "Career"
  | .health => "Health"
  | .leisure => "Leisure"
  | .chores => "Chores"
  | .social => "Social"

/-- One penalty or bonus entry reported by `check_goal_status`. -/
structure GoalAdjustment where
  goal_title : String
  points : ℤ
  reason : String
  deriving DecidableEq, Repr

/-- The body of the per-goal loop of `check_goal_status`
(`gamification.py` lines 417-506), returning the new XP and the penalty and
bonus entries this goal contributes (each list has length at most 1). -/
def processGoal (nowUtc : ℤ) (acts : List Activity) (activity : Activity) (g : Goal)
    (xp : ℤ) : ℤ × List GoalAdjustment × List GoalAdjustment :=
  let start := ingestWindowStart nowUtc g.timeframe
  let totalMinutes := goalMinutes acts g start
  let hoursLogged : ℚ := (totalMinutes : ℚ) / 60
  let target : ℚ := (g.target_value : ℚ)
  if g.goal_type = GoalType.limit then
    if target < hoursLogged then
      let prevMinutes : ℤ := (totalMinutes : ℤ) - (pyOr30 activity.duration_minutes : ℤ)
      let prevHours : ℚ := (prevMinutes : ℚ) / 60
      if prevHours ≤ target then
        (max 0 (xp - 50),
         [{ goal_title := g.title.getD ("Limit " ++ categoryName g.category),
            points := -50, reason := "Exceeded limit" }], [])
      else
        (max 0 (xp - 10),
         [{ goal_title := g.title.getD ("Limit " ++ categoryName g.category),
            points := -10, reason := "Continued over limit" }], [])
    else (xp, [], [])
  else
    if target ≤ hoursLogged then
      let prevMinutes : ℤ := (totalMinutes : ℤ) - (pyOr30 activity.duration_minutes : ℤ)
      let prevHours : ℚ := (prevMinutes : ℚ) / 60
      if prevHours < target then
        (xp + 25,
         [], [{ goal_title := g.title.getD (categoryName g.category ++ " Goal"),
                points := 25, reason := "Goal completed" }])
      else (xp, [], [])
    else (xp, [], [])

/-- `check_goal_status` (`gamification.py` lines 398-514): fold the per-goal
loop over all of the user's goals, accumulating the XP mutations and the
reported penalties and bonuses.  `user.level` is never assigned here. -/
def check_goal_status (nowUtc : ℤ) (goals : List Goal) (acts : List Activity)
    (activity : Activity) (st : UserState) :
    UserState × List GoalAdjustment × List GoalAdjustment :=
  let r := goals.foldl
    (fun (acc : ℤ × List GoalAdjustment × List GoalAdjustment) g =>
      let s := processGoal nowUtc acts activity g acc.1
      (s.1, acc.2.1 ++ s.2.1, acc.2.2 ++ s.2.2))
    (st.xp, [], [])
  ({ st with xp := r.1 }, r.2.1, r.2.2)

/-- The chest-credit accrual block of `log_activity`
(`routes/activities.py` lines 102-130).  Given the parsed productivity score,
the parsed nullable duration and the stored counters, returns
`(credits_earned, productive_minutes, chest_credits)` after the event. -/
def log_activity_credits (productivity_score : ℚ) (duration_minutes : Option ℕ)
    (productive_minutes chest_credits : ℕ) : ℕ × ℕ × ℕ :=
  if 0 < productivity_score then
    let pm := productive_minutes + pyOr30 duration_minutes
    let keysFromThreshold := pm / 120
    let remainingMinutes := pm % 120
    if 0 < keysFromThreshold then
      (keysFromThreshold, remainingMinutes, chest_credits + keysFromThreshold)
    else (0, pm, chest_credits)
  else (0, productive_minutes, chest_credits)

/-- Sequential ingestion of several scored activities through
`log_activity_credits`, accumulating the credits earned along the way. -/
def logActivitySeq (events : List (ℚ × Option ℕ)) (productive_minutes chest_credits : ℕ) :
    ℕ × ℕ × ℕ :=
  events.foldl
    (fun (acc : ℕ × ℕ × ℕ) e =>
      let r := log_activity_credits e.1 e.2 acc.2.1 acc.2.2
      (acc.1 + r.1, r.2.1, r.2.2))
    (0, productive_minutes, chest_credits)

/-- Item rarities (`models.RarityEnum`). -/
inductive Rarity
  | common
  | rare
  | legendary
  | mythic
  deriving DecidableEq, Repr

/-- One catalog item (`models.Item`). -/
structure Item where
  name : String
  rarity : Rarity
  deriving DecidableEq, Repr

/-- One `(user, item)` ownership row (`models.UserItem`). -/
structure OwnedItem where
  itemName : String
  count : ℕ
  deriving DecidableEq, Repr

/-- Increment the count of the first ownership row matching the name
(the `.first()` query plus `user_item.count += 1` in `open_chest`); `none`
when no row matches.  Also returns the updated count. -/
def bumpOwned : List OwnedItem → String → Option (List OwnedItem × ℕ)
  | [], _ => none
  | o :: rest, nm =>
    if o.itemName = nm then some ({ o with count := o.count + 1 } :: rest, o.count + 1)
    else (bumpOwned rest nm).map (fun r => (o :: r.1, r.2))

/-- Total number of owned item copies, over all rows. -/
def sumCounts (owned : List OwnedItem) : ℕ := (owned.map (fun o => o.count)).sum

/-- Outcome of `open_chest`. -/
inductive ChestResult
  | insufficientCredits
  | noItems
  | opened (item : Item) (isNew : Bool) (count : ℕ) (rarity : Rarity)
  deriving DecidableEq, Repr

/-- The item pool drawn from in `open_chest` (`gamification.py` lines
622-627): the items of the drawn rarity, falling back to the whole catalog
when that tier is empty. -/
def chestPool (catalog : List Item) (rarityDraw : Rarity) : List Item :=
  let pool0 := catalog.filter (fun i => decide (i.rarity = rarityDraw))
  if pool0.isEmpty then catalog else pool0

/-- `open_chest` (`gamification.py` lines 597-664).  The two random draws are
injected: `rarityDraw` is the weighted rarity pick and `pick` indexes the
uniform item choice.  Returns the outcome, the new ownership rows and the new
credit balance.  `credits = 0` returns the typed insufficient-credits error
untouched; an empty pool after the fallback refunds the debited credit. -/
def open_chest (catalog : List Item) (owned : List OwnedItem) (credits : ℕ)
    (rarityDraw : Rarity) (pick : ℕ) : ChestResult × List OwnedItem × ℕ :=
  if credits = 0 then (.insufficientCredits, owned, credits)
  else
    let credits1 := credits - 1
    let pool := chestPool catalog rarityDraw
    match pool.get? (pick % pool.length) with
    | none => (.noItems, owned, credits1 + 1)
    | some item =>
      match bumpOwned owned item.name with
      | some r => (.opened item false r.2 rarityDraw, r.1, credits1)
      | none =>
        (.opened item true 1 rarityDraw,
         owned ++ [{ itemName := item.name, count := 1 }], credits1)

/-- One registry entry of the badge evaluator: a name plus a predicate over
the new activity, the full history and the optional local hour.  A predicate
that raises is modelled as returning `Except.error` (`BADGE_CHECKS`,
`gamification.py` lines 276-287). -/
structure BadgeEntry where
  name : String
  check : Activity → List Activity → Option ℕ → Except String Bool

/-- The body of the badge loop (`gamification.py` lines 324-352): skip badges
missing from the database or already earned; run the predicate inside
try/except, skipping it on error; award on `true`. -/
def badgeStep (inDb alreadyEarned : String → Bool) (activity : Activity)
    (acts : List Activity) (localHour : Option ℕ) (awarded : List String)
    (e : BadgeEntry) : List String :=
  if !inDb e.name then awarded
  else if alreadyEarned e.name then awarded
  else
    match e.check activity acts localHour with
    | .error _ => awarded
    | .ok true => awarded ++ [e.name]
    | .ok false => awarded

/-- `check_and_award_badges` (`gamification.py` lines 290-357): walk the
registry in order applying `badgeStep`.  Returns the names of the newly
awarded badges in registry order. -/
def check_and_award_badges (registry : List BadgeEntry) (inDb alreadyEarned : String → Bool)
    (activity : Activity) (acts : List Activity) (localHour : Option ℕ) : List String :=
  registry.foldl (badgeStep inDb alreadyEarned activity acts localHour) []

/-- A registry entry whose predicate always holds (for witnesses). -/
def badgeAlways (nm : String) : BadgeEntry :=
  { name := nm, check := fun _ _ _ => .ok true }

/-- A registry entry whose predicate raises (for witnesses). -/
def badgeBoom : BadgeEntry :=
  { name := "Iron Streak", check := fun _ _ _ => .error "boom" }

/-- Modelled from the spec: `calculate_streak` is imported from `gamification`
(`routes/activities.py` line 12, `app.py` line 395) and called as
`calculate_streak(session, user_id, tz_offset)`, but its definition is absent
from the available sources.  Spec section 4.5: the set of distinct local
activity dates is derived via the timezone offset.  Here: the day index of
`timestamp - tz_offset` for every stored activity, as a finite set. -/
def localDates (timestamps : List ℤ) (tzOffset : ℤ) : Finset ℤ :=
  (timestamps.map (fun t => dayOf (t - tzOffset))).toFinset

/-- Count of consecutive dates present in `dates` walking backwards from `d`,
bounded by `fuel`. -/
def streakBack (dates : Finset ℤ) (d : ℤ) : ℕ → ℕ
  | 0 => 0
  | fuel + 1 => if d ∈ dates then streakBack dates (d - 1) fuel + 1 else 0

/-- Modelled from the spec (section 4.5): *current streak* = count of
consecutive days ending at today where each day has at least one activity
(0 if today itself has none).  `dates.card + 1` fuel suffices: a run can
never contain more than `dates.card` distinct dates. -/
def currentStreak (dates : Finset ℤ) (today : ℤ) : ℕ :=
  streakBack dates today (dates.card + 1)

/-- Modelled from the spec (section 4.5): *longest streak* = the maximum run
length of consecutive calendar dates found anywhere in the date set. -/
def longestStreak (dates : Finset ℤ) : ℕ :=
  dates.sup (fun d => streakBack dates d (dates.card + 1))

/-- Modelled from the spec: the `calculate_streak` operation, returning
`(current_streak, longest_streak)` from the activity timestamps, the
caller-supplied timezone offset and today's local day index. -/
def calculate_streak (timestamps : List ℤ) (tzOffset today : ℤ) : ℕ × ℕ :=
  let dates := localDates timestamps tzOffset
  (currentStreak dates today, longestStreak dates)

/-! ### Concrete sample data used by counterexamples and witnesses -/

/-- A 60-minute Career activity logged at UTC minute 100 of day 0. -/
def actCoding : Activity :=
  { activity_name := "Coding", category := .career, duration_minutes := some 60,
    timestamp := 100, productivity_score := 20, is_focus_session := false }

/-- A 60-minute Health activity logged at UTC minute 200 of day 0. -/
def actGym : Activity :=
  { activity_name := "Gym", category := .health, duration_minutes := some 60,
    timestamp := 200, productivity_score := 8, is_focus_session := false }

/-- A 90-minute Leisure activity logged at UTC minute 150 of day 0. -/
def actGames : Activity :=
  { activity_name := "Games", category := .leisure, duration_minutes := some 90,
    timestamp := 150, productivity_score := -15/2, is_focus_session := false }

/-- A daily target goal: achieve at least 1 hour of Career. -/
def goalCareerTarget : Goal :=
  { title := none, category := .career, target_value := 1,
    timeframe := .daily, goal_type := .target }

/-- A daily limit goal: stay at or below 1 hour of Leisure. -/
def goalLeisureLimit : Goal :=
  { title := none, category := .leisure, target_value := 1,
    timeframe := .daily, goal_type := .limit }

/-! ## Theorems -/

/-- `calculate_level` is monotone non-decreasing in XP. -/
theorem calculate_level_mono {a b : ℤ} (h : a ≤ b) :
    calculate_level a ≤ calculate_level b := by
  unfold calculate_level
  split_ifs with ha hb hb
  · exact le_refl _
  · have h0 : (0 : ℤ) ≤ ((Nat.sqrt b.toNat / 5 : ℕ) : ℤ) := Int.natCast_nonneg _
    omega
  · omega
  · have h1 : a.toNat ≤ b.toNat := by omega
    have h2 : Nat.sqrt a.toNat ≤ Nat.sqrt b.toNat := Nat.sqrt_le_sqrt h1
    have h3 : Nat.sqrt a.toNat / 5 ≤ Nat.sqrt b.toNat / 5 := Nat.div_le_div_right h2
    omega

/-- Evaluation of the level curve at 25 XP. -/
theorem calculate_level_25 : calculate_level 25 = 2 := by
  have h25 : Nat.sqrt 25 = 5 := by
    rw [show (25 : ℕ) = 5 * 5 from rfl]
    exact Nat.sqrt_eq 5
  have ht : (25 : ℤ).toNat = 25 := rfl
  unfold calculate_level
  rw [if_neg (by norm_num), ht, h25]
  norm_num

/-- Evaluation of the target-bonus run used by C1 and C3: ingesting the
60-minute Career activity against the 1-hour daily Career target goal from
xp = 0 awards the +25 bonus. -/
theorem processGoal_first_bonus :
    processGoal 600 [actCoding] actCoding goalCareerTarget 0 =
      (25, [], [{ goal_title := "Career Goal", points := 25, reason := "Goal completed" }]) := by
  have hs : ingestWindowStart 600 goalCareerTarget.timeframe = 0 := by decide
  have hm : goalMinutes [actCoding] goalCareerTarget 0 = 60 := by decide
  simp only [processGoal, hs, hm]
  norm_num [goalCareerTarget, actCoding, pyOr30]
  decide

/-- Claim C1 counterexample: from the consistent state (xp = 0, level = 1),
ingesting the 60-minute Career activity against the 1-hour daily Career
target goal applies the +25 completion bonus inside `check_goal_status`;
afterwards the stored level is still 1 while `Level(25) = 2` — the stored
level does not equal `Level(xp)` after this XP-changing core operation. -/
theorem c1_counterexample :
    ((check_goal_status 600 [goalCareerTarget] [actCoding] actCoding
        { xp := 0, level := 1 }).1).level ≠
      calculate_level ((check_goal_status 600 [goalCareerTarget] [actCoding] actCoding
        { xp := 0, level := 1 }).1).xp := by
  have hrun : (check_goal_status 600 [goalCareerTarget] [actCoding] actCoding
      { xp := 0, level := 1 }).1 = { xp := 25, level := 1 } := by
    simp [check_goal_status, processGoal_first_bonus]
  rw [hrun, calculate_level_25]
  norm_num

/-- Claim C1 amended: the XP-award operation `award_xp` does maintain
`level = Level(xp)` whenever the invariant held before and the awarded
amount is non-negative, but the limit-goal penalty and target-goal bonus
mutations in `check_goal_status` change XP without ever reassigning the
stored level, so the invariant is not re-established there. -/
theorem c1_amended :
    (∀ (st : UserState) (amount : ℤ), st.level = calculate_level st.xp → 0 ≤ amount →
      ((award_xp st amount).1).level = calculate_level ((award_xp st amount).1).xp)
    ∧ (∀ (nowUtc : ℤ) (goals : List Goal) (acts : List Activity) (activity : Activity)
        (st : UserState),
      ((check_goal_status nowUtc goals acts activity st).1).level = st.level) := by
  constructor
  · intro st amount hinv hpos
    have hmono := calculate_level_mono (show st.xp ≤ st.xp + amount by omega)
    simp only [award_xp]
    split_ifs with hlt
    · rfl
    · omega
  · intro nowUtc goals acts activity st
    rfl

/-- Witness for the C1 amended theorem: awarding 5 XP from the consistent
state (xp = 25, level = 2) keeps the stored level equal to `Level(xp)`. -/
theorem c1_witness :
    ((award_xp { xp := 25, level := 2 } 5).1).level =
      calculate_level ((award_xp { xp := 25, level := 2 } 5).1).xp :=
  c1_amended.1 { xp := 25, level := 2 } 5
    (by rw [show ({ xp := 25, level := 2 } : UserState).xp = 25 from rfl, calculate_level_25])
    (by norm_num)

/-- Claim C8: `xpForLevel` is an exact inverse of `Level`: for every integer
`L ≥ 1`, `Level(xpForLevel(L)) = L`, with `Level(xp) = 1` for `xp ≤ 0` and
`⌊√xp * 0.2⌋ + 1` otherwise, and `xpForLevel(L) = 0` for `L ≤ 1` and
`⌊((L-1)/0.2)^2⌋` otherwise. -/
theorem c8_xp_for_level_inverse (L : ℤ) (hL : 1 ≤ L) :
    calculate_level (xp_for_level L) = L := by
  rcases eq_or_lt_of_le hL with h1 | h2
  · rw [← h1]; rfl
  · have hn1 : (1 : ℤ) ≤ L - 1 := by omega
    set n := (L - 1).toNat with hdef
    have hcast : ((n : ℤ)) = L - 1 := Int.toNat_of_nonneg (by omega)
    have hx : xp_for_level L = ((25 * n ^ 2 : ℕ) : ℤ) := by
      unfold xp_for_level
      rw [if_neg (by omega)]
      push_cast
      rw [hcast]
    have hnpos : 1 ≤ n := by omega
    rw [hx]
    unfold calculate_level
    have hxpos : (0 : ℤ) < ((25 * n ^ 2 : ℕ) : ℤ) := by
      have h0 : 0 < 25 * n ^ 2 := by nlinarith [hnpos]
      exact_mod_cast h0
    rw [if_neg (not_le.mpr hxpos)]
    rw [Int.toNat_natCast]
    have h5 : 25 * n ^ 2 = (5 * n) ^ 2 := by ring
    rw [h5, Nat.sqrt_eq', Nat.mul_div_cancel_left n (by norm_num)]
    omega

/-- Witness for C8 at `L = 3`. -/
theorem c8_witness : calculate_level (xp_for_level 3) = 3 :=
  c8_xp_for_level_inverse 3 (by norm_num)

/-- Claim C5 counterexample: at UTC minute 30 (00:30 UTC on 1970-01-01) with a
caller-supplied offset of +300 minutes, the ingestion-time check computes the
daily window start as UTC minute 0 (UTC midnight), while the claimed
offset-aware derivation gives UTC minute -1140 (local midnight of the local
today, converted back to UTC).  The ingestion path therefore does not follow
the claimed window derivation. -/
theorem c5_counterexample :
    ingestWindowStart 30 Timeframe.daily ≠ specWindowStartUtc 30 300 Timeframe.daily := by
  decide

/-- Claim C5 amended: only the read-only progress query derives the window
from local today = nowUTC − offset and converts the start back to UTC by
adding the offset; the ingestion-time penalty/bonus check derives the window
from UTC now with the offset ignored, i.e. it behaves as the claimed
computation with the offset fixed to 0. -/
theorem c5_amended :
    (∀ (nowUtc tzOffset : ℤ) (tf : Timeframe),
      readWindowStartUtc nowUtc tzOffset tf = specWindowStartUtc nowUtc tzOffset tf)
    ∧ (∀ (nowUtc : ℤ) (tf : Timeframe),
      ingestWindowStart nowUtc tf = specWindowStartUtc nowUtc 0 tf) := by
  constructor
  · intro nowUtc tzOffset tf
    cases tf <;> rfl
  · intro nowUtc tf
    cases tf <;> simp [ingestWindowStart, specWindowStartUtc]

/-- Claim C6: on a positively-scored activity the duration (30 when absent)
is added to the productive-minutes counter, the credits earned equal
`counter / 120` and the counter becomes `counter % 120` (staying below 120
when it was); a non-positively-scored activity changes nothing; and three
40-minute positively-scored activities yield exactly the same 1 credit and
0-minute remainder as one 120-minute activity. -/
theorem c6_credit_accrual (score : ℚ) (d : Option ℕ) (pm cr : ℕ) :
    (0 < score →
      log_activity_credits score d pm cr =
        ((pm + pyOr30 d) / 120, (pm + pyOr30 d) % 120, cr + (pm + pyOr30 d) / 120))
    ∧ (¬ 0 < score → log_activity_credits score d pm cr = (0, pm, cr))
    ∧ (pm < 120 → (log_activity_credits score d pm cr).2.1 < 120)
    ∧ logActivitySeq [(20, some 40), (20, some 40), (20, some 40)] 0 cr = (1, 0, cr + 1)
    ∧ logActivitySeq [(20, some 120)] 0 cr = (1, 0, cr + 1) := by
  refine ⟨?_, ?_, ?_, ?_, ?_⟩
  · intro h
    simp only [log_activity_credits, if_pos h]
    split_ifs with hk <;> (simp [Prod.ext_iff]; try omega)
  · intro h
    simp [log_activity_credits, h]
  · intro hpm
    simp only [log_activity_credits]
    split_ifs <;> dsimp only <;> omega
  · norm_num [logActivitySeq, log_activity_credits, pyOr30]
  · norm_num [logActivitySeq, log_activity_credits, pyOr30]

/-- Witness for C6: a 40-minute positively-scored activity at counter 100
earns 1 credit and leaves the counter at 20. -/
theorem c6_witness : log_activity_credits 20 (some 40) 100 0 = (1, 20, 1) := by
  have h := (c6_credit_accrual 20 (some 40) 100 0).1 (by norm_num)
  simpa [pyOr30] using h

/-- Evaluation of the second ingestion used by C3: after the bonus has fired,
ingesting a 60-minute Health activity (which does not match the Career goal)
makes the per-goal check fire the +25 bonus again, because `prev_minutes`
subtracts the non-matching activity's duration from the unchanged total. -/
theorem processGoal_second_bonus :
    processGoal 600 [actCoding, actGym] actGym goalCareerTarget 25 =
      (50, [], [{ goal_title := "Career Goal", points := 25, reason := "Goal completed" }]) := by
  have hs : ingestWindowStart 600 goalCareerTarget.timeframe = 0 := by decide
  have hm : goalMinutes [actCoding, actGym] goalCareerTarget 0 = 60 := by decide
  simp only [processGoal, hs, hm]
  norm_num [goalCareerTarget, actGym, pyOr30]
  decide

/-- First full `check_goal_status` run of the C3 scenario. -/
theorem check_goal_status_run1 :
    check_goal_status 600 [goalCareerTarget] [actCoding] actCoding { xp := 0, level := 1 } =
      ({ xp := 25, level := 1 }, [],
       [{ goal_title := "Career Goal", points := 25, reason := "Goal completed" }]) := by
  simp [check_goal_status, processGoal_first_bonus]

/-- Second full `check_goal_status` run of the C3 scenario. -/
theorem check_goal_status_run2 :
    check_goal_status 600 [goalCareerTarget] [actCoding, actGym] actGym
        { xp := 25, level := 1 } =
      ({ xp := 50, level := 1 }, [],
       [{ goal_title := "Career Goal", points := 25, reason := "Goal completed" }]) := by
  simp [check_goal_status, processGoal_second_bonus]

/-- Claim C3 (code-bug evidence): with the 1-hour daily Career target goal,
ingesting the 60-minute Career activity fires the +25 bonus, and then
ingesting a 60-minute Health activity — which does not match the goal and
adds nothing to its hours — fires the same goal's +25 bonus a second time in
the same window, leaving xp = 50.  The claim (and the code's own comment
"Check if this activity completed the goal") says the bonus fires exactly
once, on the activity that first reaches the target. -/
theorem c3_bonus_fires_twice :
    (check_goal_status 600 [goalCareerTarget] [actCoding] actCoding
        { xp := 0, level := 1 }).2.2.map (fun b => b.points) = [25]
    ∧ (check_goal_status 600 [goalCareerTarget] [actCoding, actGym] actGym
        ((check_goal_status 600 [goalCareerTarget] [actCoding] actCoding
          { xp := 0, level := 1 }).1)).2.2.map (fun b => b.points) = [25]
    ∧ ((check_goal_status 600 [goalCareerTarget] [actCoding, actGym] actGym
        ((check_goal_status 600 [goalCareerTarget] [actCoding] actCoding
          { xp := 0, level := 1 }).1)).1).xp = 50 := by
  rw [check_goal_status_run1]
  refine ⟨rfl, ?_, ?_⟩
  all_goals rw [show ((({ xp := 25, level := 1 } : UserState), ([] : List GoalAdjustment),
      [({ goal_title := "Career Goal", points := 25, reason := "Goal completed" } : GoalAdjustment)]).1) =
      ({ xp := 25, level := 1 } : UserState) from rfl, check_goal_status_run2]
  all_goals try rfl

/-- Claim C2: for a limit goal, on ingestion of one activity, with
`hoursLogged` the matched hours in the goal's window and
`prevHours = hoursLogged − thisActivityHours`: a first breach
(`hoursLogged > target` and `prevHours ≤ target`) costs exactly 50 XP clamped
at 0; a continued breach (`prevHours > target`) costs exactly 10 XP clamped
at 0; no penalty when `hoursLogged ≤ target`; and each goal contributes at
most one penalty per ingested activity. -/
theorem c2_limit_penalty (nowUtc : ℤ) (acts : List Activity) (activity : Activity)
    (g : Goal) (xp : ℤ) (hlim : g.goal_type = GoalType.limit) :
    ((g.target_value : ℚ) <
        (goalMinutes acts g (ingestWindowStart nowUtc g.timeframe) : ℚ) / 60 →
      (goalMinutes acts g (ingestWindowStart nowUtc g.timeframe) : ℚ) / 60 -
          (pyOr30 activity.duration_minutes : ℚ) / 60 ≤ (g.target_value : ℚ) →
      processGoal nowUtc acts activity g xp =
        (max 0 (xp - 50),
         [{ goal_title := g.title.getD ("Limit " ++ categoryName g.category),
            points := -50, reason := "Exceeded limit" }], []))
    ∧ ((g.target_value : ℚ) <
        (goalMinutes acts g (ingestWindowStart nowUtc g.timeframe) : ℚ) / 60 →
      (g.target_value : ℚ) <
        (goalMinutes acts g (ingestWindowStart nowUtc g.timeframe) : ℚ) / 60 -
          (pyOr30 activity.duration_minutes : ℚ) / 60 →
      processGoal nowUtc acts activity g xp =
        (max 0 (xp - 10),
         [{ goal_title := g.title.getD ("Limit " ++ categoryName g.category),
            points := -10, reason := "Continued over limit" }], []))
    ∧ ((goalMinutes acts g (ingestWindowStart nowUtc g.timeframe) : ℚ) / 60 ≤
        (g.target_value : ℚ) →
      processGoal nowUtc acts activity g xp = (xp, [], []))
    ∧ (processGoal nowUtc acts activity g xp).2.1.length ≤ 1 := by
  have hconv : (((goalMinutes acts g (ingestWindowStart nowUtc g.timeframe) : ℤ) -
      (pyOr30 activity.duration_minutes : ℤ) : ℤ) : ℚ) / 60 =
      (goalMinutes acts g (ingestWindowStart nowUtc g.timeframe) : ℚ) / 60 -
      (pyOr30 activity.duration_minutes : ℚ) / 60 := by
    push_cast
    ring
  refine ⟨?_, ?_, ?_, ?_⟩
  · intro h1 h2
    simp only [processGoal, if_pos hlim, if_pos h1, hconv, if_pos h2]
  · intro h1 h2
    simp only [processGoal, if_pos hlim, if_pos h1, hconv, if_neg (not_le.mpr h2)]
  · intro h3
    simp only [processGoal, if_pos hlim, if_neg (not_lt.mpr h3)]
  · simp only [processGoal]
    split_ifs <;> simp

/-- Witness for C2: a 90-minute Leisure activity against the fresh 1-hour
daily Leisure limit goal is a first breach, costing exactly 50 XP (60 → 10). -/
theorem c2_witness :
    processGoal 600 [actGames] actGames goalLeisureLimit 60 =
      (10, [{ goal_title := "Limit Leisure", points := -50, reason := "Exceeded limit" }], []) := by
  have hm : goalMinutes [actGames] goalLeisureLimit
      (ingestWindowStart 600 goalLeisureLimit.timeframe) = 90 := by decide
  have h := (c2_limit_penalty 600 [actGames] actGames goalLeisureLimit 60 rfl).1
    (by rw [hm]; norm_num [goalLeisureLimit])
    (by rw [hm]; norm_num [goalLeisureLimit, actGames, pyOr30])
  simpa [goalLeisureLimit] using h

/-- Claim C9: during one badge-evaluation pass, a predicate that raises is
skipped and the pass is exactly the pass over the registry without that
entry: predicates before and after it still run and their awards are kept. -/
theorem c9_badge_error_skip (pre post : List BadgeEntry) (e : BadgeEntry)
    (inDb alreadyEarned : String → Bool) (activity : Activity) (acts : List Activity)
    (localHour : Option ℕ) (msg : String)
    (herr : e.check activity acts localHour = .error msg) :
    check_and_award_badges (pre ++ e :: post) inDb alreadyEarned activity acts localHour =
      check_and_award_badges (pre ++ post) inDb alreadyEarned activity acts localHour := by
  unfold check_and_award_badges
  rw [List.foldl_append, List.foldl_append, List.foldl_cons]
  have hstep : ∀ acc, badgeStep inDb alreadyEarned activity acts localHour acc e = acc := by
    intro acc
    simp only [badgeStep, herr]
    split_ifs <;> rfl
  rw [hstep]

/-- Witness for C9: in a registry whose middle predicate raises, the pass
equals the pass without it, and both award the first and last badges. -/
theorem c9_witness :
    check_and_award_badges [badgeAlways "First Steps", badgeBoom, badgeAlways "Centurion"]
        (fun _ => true) (fun _ => false) actCoding [actCoding] none =
      check_and_award_badges [badgeAlways "First Steps", badgeAlways "Centurion"]
        (fun _ => true) (fun _ => false) actCoding [actCoding] none
    ∧ check_and_award_badges [badgeAlways "First Steps", badgeAlways "Centurion"]
        (fun _ => true) (fun _ => false) actCoding [actCoding] none =
      ["First Steps", "Centurion"] :=
  ⟨c9_badge_error_skip [badgeAlways "First Steps"] [badgeAlways "Centurion"] badgeBoom
      (fun _ => true) (fun _ => false) actCoding [actCoding] none "boom" rfl,
   rfl⟩

/-- Unfolding lemma for `sumCounts` on a cons cell. -/
theorem sumCounts_cons (o : OwnedItem) (l : List OwnedItem) :
    sumCounts (o :: l) = o.count + sumCounts l := by
  simp [sumCounts]

/-- Appending a fresh count-1 ownership row adds one owned copy. -/
theorem sumCounts_append_one (l : List OwnedItem) (nm : String) :
    sumCounts (l ++ [{ itemName := nm, count := 1 }]) = sumCounts l + 1 := by
  simp [sumCounts]

/-- Every element of the chest pool comes from the catalog. -/
theorem chestPool_subset (catalog : List Item) (rarityDraw : Rarity) (x : Item)
    (hx : x ∈ chestPool catalog rarityDraw) : x ∈ catalog := by
  simp only [chestPool] at hx
  split_ifs at hx with he
  · exact hx
  · exact List.mem_of_mem_filter hx

/-- The chest pool of a non-empty catalog is non-empty. -/
theorem chestPool_ne_nil (catalog : List Item) (rarityDraw : Rarity)
    (hcat : catalog ≠ []) : chestPool catalog rarityDraw ≠ [] := by
  simp only [chestPool]
  split_ifs with he
  · exact hcat
  · intro hnil
    rw [hnil] at he
    simp at he

/-- A successful `bumpOwned` increments the total owned-copy count by
exactly one. -/
theorem bumpOwned_sum (owned : List OwnedItem) (nm : String) (l : List OwnedItem) (c : ℕ)
    (h : bumpOwned owned nm = some (l, c)) : sumCounts l = sumCounts owned + 1 := by
  induction owned generalizing l c with
  | nil => simp [bumpOwned] at h
  | cons o rest ih =>
    unfold bumpOwned at h
    split_ifs at h with ho
    · simp only [Option.some.injEq, Prod.mk.injEq] at h
      obtain ⟨h1, h2⟩ := h
      rw [← h1, sumCounts_cons, sumCounts_cons]
      dsimp only
      omega
    · cases hr : bumpOwned rest nm with
      | none => rw [hr] at h; simp at h
      | some r =>
        rw [hr] at h
        simp only [Option.map_some', Option.some.injEq, Prod.mk.injEq] at h
        obtain ⟨h1, h2⟩ := h
        have hrec := ih r.1 r.2 (by rw [hr])
        rw [← h1, sumCounts_cons, sumCounts_cons]
        omega

/-- Claim C7: `open_chest` with zero credits returns the typed
insufficient-credits error and mutates nothing; with at least one credit and
a non-empty catalog it always succeeds, deducts exactly one credit, and
increments or creates exactly one owned-item count (total owned copies go up
by exactly 1); with at least one credit and an empty catalog it returns the
typed no-items error with the debited credit refunded, leaving the balance
and ownership unchanged. -/
theorem c7_open_chest (catalog : List Item) (owned : List OwnedItem) (credits : ℕ)
    (rarityDraw : Rarity) (pick : ℕ) :
    (credits = 0 →
      open_chest catalog owned credits rarityDraw pick =
        (.insufficientCredits, owned, credits))
    ∧ (0 < credits → catalog ≠ [] →
      (∃ item isNew cnt, (open_chest catalog owned credits rarityDraw pick).1 =
          ChestResult.opened item isNew cnt rarityDraw ∧ item ∈ catalog)
      ∧ (open_chest catalog owned credits rarityDraw pick).2.2 = credits - 1
      ∧ sumCounts (open_chest catalog owned credits rarityDraw pick).2.1 =
          sumCounts owned + 1)
    ∧ (0 < credits → catalog = [] →
      open_chest catalog owned credits rarityDraw pick = (.noItems, owned, credits)) := by
  refine ⟨?_, ?_, ?_⟩
  · intro h
    simp [open_chest, h]
  · intro hc hcat
    have hne : credits ≠ 0 := by omega
    have hpne : chestPool catalog rarityDraw ≠ [] := chestPool_ne_nil catalog rarityDraw hcat
    have hlen : 0 < (chestPool catalog rarityDraw).length := List.length_pos.mpr hpne
    have hlt : pick % (chestPool catalog rarityDraw).length <
        (chestPool catalog rarityDraw).length := Nat.mod_lt _ hlen
    have hget : (chestPool catalog rarityDraw).get?
        (pick % (chestPool catalog rarityDraw).length) =
        some ((chestPool catalog rarityDraw).get
          ⟨pick % (chestPool catalog rarityDraw).length, hlt⟩) := List.get?_eq_get hlt
    have hmem : (chestPool catalog rarityDraw).get
        ⟨pick % (chestPool catalog rarityDraw).length, hlt⟩ ∈ catalog :=
      chestPool_subset catalog rarityDraw _ (List.get_mem _ _ _)
    simp only [open_chest, if_neg hne, hget]
    cases hb : bumpOwned owned ((chestPool catalog rarityDraw).get
        ⟨pick % (chestPool catalog rarityDraw).length, hlt⟩).name with
    | none =>
      simp only [hb]
      exact ⟨⟨_, true, 1, rfl, hmem⟩, by trivial, sumCounts_append_one owned _⟩
    | some r =>
      simp only [hb]
      exact ⟨⟨_, false, r.2, rfl, hmem⟩, by trivial, bumpOwned_sum owned _ r.1 r.2 hb⟩
  · intro hc hcat
    subst hcat
    have hne : credits ≠ 0 := by omega
    simp only [open_chest, if_neg hne]
    simp [chestPool, Prod.ext_iff]
    omega

/-- A one-item catalog used by the C7 witness. -/
def catalogCoffee : List Item := [{ name := "Coffee Cup", rarity := .common }]

/-- Witness for C7: opening a chest with exactly 1 credit against the
one-item catalog leaves the balance at 0 and creates exactly one owned copy. -/
theorem c7_witness :
    (open_chest catalogCoffee [] 1 Rarity.common 0).2.2 = 0
    ∧ sumCounts (open_chest catalogCoffee [] 1 Rarity.common 0).2.1 = 1 := by
  have h := (c7_open_chest catalogCoffee [] 1 Rarity.common 0).2.1 (by norm_num)
    (by simp [catalogCoffee])
  exact ⟨by simpa using h.2.1, by simpa [sumCounts] using h.2.2⟩

/-- The goal-matching predicate as a single Boolean test (category, window
and optional title keyword match). -/
def goalMatches (g : Goal) (start : ℤ) (a : Activity) : Bool :=
  (decide (a.category = g.category) && decide (start ≤ a.timestamp)) &&
    (match g.title with
     | none => true
     | some t => titleKeywordMatch (stripLeadingDirective t.toLower) a.activity_name.toLower)

/-- `matchedActivities` is the single-pass filter by `goalMatches`. -/
theorem matchedActivities_eq_filter (acts : List Activity) (g : Goal) (start : ℤ) :
    matchedActivities acts g start = acts.filter (goalMatches g start) := by
  cases ht : g.title with
  | none =>
    simp only [matchedActivities, ht]
    apply List.filter_congr
    intro x hx
    simp [goalMatches, ht]
  | some t =>
    simp only [matchedActivities, ht, List.filter_filter]
    apply List.filter_congr
    intro x hx
    simp [goalMatches, ht, Bool.and_comm]

/-- Claim C10: an explicit duration of 0 minutes is read as 30 minutes,
exactly like an absent duration, by the productivity scorer (hence also by
XP gain), the chest-credit accrual, and the goal hour summation (both for
the ingested activity and for stored history). -/
theorem c10_zero_duration (category : Category) (foc : Bool) (score : ℚ)
    (pm cr : ℕ) (nowUtc start : ℤ) (acts l2 : List Activity) (a : Activity)
    (g : Goal) (xp : ℤ) :
    calculate_weighted_score category (some 0) foc =
        calculate_weighted_score category none foc
    ∧ calculate_weighted_score category (some 0) foc =
        calculate_weighted_score category (some 30) foc
    ∧ calculate_xp_gain (calculate_weighted_score category (some 0) foc) =
        calculate_xp_gain (calculate_weighted_score category none foc)
    ∧ log_activity_credits score (some 0) pm cr = log_activity_credits score none pm cr
    ∧ log_activity_credits score (some 0) pm cr = log_activity_credits score (some 30) pm cr
    ∧ processGoal nowUtc acts { a with duration_minutes := some 0 } g xp =
        processGoal nowUtc acts { a with duration_minutes := none } g xp
    ∧ goalMinutes (acts ++ { a with duration_minutes := some 0 } :: l2) g start =
        goalMinutes (acts ++ { a with duration_minutes := none } :: l2) g start := by
  have hscore : calculate_weighted_score category (some 0) foc =
      calculate_weighted_score category none foc := by
    simp [calculate_weighted_score, pyOr30]
  have hmatch0 : goalMatches g start { a with duration_minutes := some 0 } =
      goalMatches g start a := rfl
  have hmatchN : goalMatches g start { a with duration_minutes := none } =
      goalMatches g start a := rfl
  refine ⟨hscore, ?_, congrArg calculate_xp_gain hscore, ?_, ?_, ?_, ?_⟩
  · simp [calculate_weighted_score, pyOr30]
  · simp [log_activity_credits, pyOr30]
  · simp [log_activity_credits, pyOr30]
  · simp [processGoal, pyOr30]
  · unfold goalMinutes
    rw [matchedActivities_eq_filter, matchedActivities_eq_filter,
      List.filter_append, List.filter_append, List.filter_cons, List.filter_cons,
      hmatch0, hmatchN]
    by_cases hm : goalMatches g start a <;> simp [hm, pyOr30]

/-- Every step counted by `streakBack` is a date present in the set. -/
theorem streakBack_mem (dates : Finset ℤ) :
    ∀ (fuel : ℕ) (d : ℤ) (i : ℕ), i < streakBack dates d fuel → d - (i : ℤ) ∈ dates := by
  intro fuel
  induction fuel with
  | zero =>
    intro d i h
    simp [streakBack] at h
  | succ n ih =>
    intro d i h
    rw [streakBack] at h
    split_ifs at h with hd
    · cases i with
      | zero => simpa using hd
      | succ j =>
        have hj : j < streakBack dates (d - 1) n := by omega
        have hmem := ih (d - 1) j hj
        have heq : d - ((j : ℕ) + 1 : ℕ) = d - 1 - (j : ℤ) := by push_cast; ring
        rw [heq]
        exact hmem
    · omega

/-- A backward run of `k` consecutive dates inside the set forces
`k ≤ dates.card`. -/
theorem run_le_card (dates : Finset ℤ) (d : ℤ) (k : ℕ)
    (hall : ∀ i : ℕ, i < k → d - (i : ℤ) ∈ dates) : k ≤ dates.card := by
  have hmapmem : ∀ i ∈ Finset.range k, d - (i : ℤ) ∈ dates := fun i hi =>
    hall i (Finset.mem_range.mp hi)
  have hinj : Set.InjOn (fun i : ℕ => d - (i : ℤ)) (Finset.range k) := by
    intro i _ j _ hij
    simp only at hij
    omega
  calc k = (Finset.range k).card := (Finset.card_range k).symm
    _ ≤ dates.card := Finset.card_le_card_of_injOn _ hmapmem hinj

/-- When `streakBack` stops strictly before its fuel runs out, the next date
backwards is missing from the set. -/
theorem streakBack_stop (dates : Finset ℤ) :
    ∀ (fuel : ℕ) (d : ℤ), streakBack dates d fuel < fuel →
      d - (streakBack dates d fuel : ℤ) ∉ dates := by
  intro fuel
  induction fuel with
  | zero =>
    intro d h
    omega
  | succ n ih =>
    intro d h
    by_cases hd : d ∈ dates
    · rw [streakBack, if_pos hd] at h ⊢
      have h' : streakBack dates (d - 1) n < n := by omega
      have hnext := ih (d - 1) h'
      have heq : d - ((streakBack dates (d - 1) n : ℕ) + 1 : ℕ) =
          d - 1 - (streakBack dates (d - 1) n : ℤ) := by push_cast; ring
      rw [heq]
      exact hnext
    · rw [streakBack, if_neg hd]
      simpa using hd

/-- A backward run of `k ≤ fuel` consecutive dates inside the set forces
`streakBack` to count at least `k`. -/
theorem streakBack_ge (dates : Finset ℤ) :
    ∀ (fuel k : ℕ) (d : ℤ), (∀ i : ℕ, i < k → d - (i : ℤ) ∈ dates) → k ≤ fuel →
      k ≤ streakBack dates d fuel := by
  intro fuel
  induction fuel with
  | zero =>
    intro k d _ hk
    omega
  | succ n ih =>
    intro k d hall hk
    cases k with
    | zero => omega
    | succ m =>
      have hd : d ∈ dates := by simpa using hall 0 (by omega)
      rw [streakBack, if_pos hd]
      have hm : m ≤ streakBack dates (d - 1) n := by
        apply ih m (d - 1) _ (by omega)
        intro i hi
        have hmem := hall (i + 1) (by omega)
        have heq : d - 1 - (i : ℤ) = d - ((i : ℕ) + 1 : ℕ) := by push_cast; ring
        rw [heq]
        exact hmem
      omega

/-- Claim C4: `calculate_streak` returns, for the set of distinct local
activity dates derived via the timezone offset, a current streak that counts
the consecutive days ending at today all present in the set (0 when today is
absent, and maximal: the day before the counted run is absent), and a
longest streak that is the maximum run length of consecutive dates anywhere
in the set (no run is longer, and a run of that length exists when it is
positive). -/
theorem c4_streak (timestamps : List ℤ) (tzOffset today : ℤ) :
    ((today ∉ localDates timestamps tzOffset →
        (calculate_streak timestamps tzOffset today).1 = 0)
     ∧ (∀ i : ℕ, i < (calculate_streak timestamps tzOffset today).1 →
        today - (i : ℤ) ∈ localDates timestamps tzOffset)
     ∧ today - ((calculate_streak timestamps tzOffset today).1 : ℤ) ∉
        localDates timestamps tzOffset)
    ∧ (∀ (d : ℤ) (k : ℕ), 0 < k →
        (∀ i : ℕ, i < k → d - (i : ℤ) ∈ localDates timestamps tzOffset) →
        k ≤ (calculate_streak timestamps tzOffset today).2)
    ∧ (0 < (calculate_streak timestamps tzOffset today).2 →
        ∃ d ∈ localDates timestamps tzOffset, ∀ i : ℕ,
          i < (calculate_streak timestamps tzOffset today).2 →
            d - (i : ℤ) ∈ localDates timestamps tzOffset) := by
  set dates := localDates timestamps tzOffset with hdates
  refine ⟨⟨?_, ?_, ?_⟩, ?_, ?_⟩
  · intro h
    show streakBack dates today (dates.card + 1) = 0
    rw [streakBack, if_neg h]
  · intro i hi
    exact streakBack_mem dates (dates.card + 1) today i hi
  · have hle : streakBack dates today (dates.card + 1) ≤ dates.card :=
      run_le_card dates today _ (streakBack_mem dates (dates.card + 1) today)
    exact streakBack_stop dates (dates.card + 1) today (by omega)
  · intro d k hk hall
    have hd : d ∈ dates := by simpa using hall 0 hk
    have h2 : k ≤ streakBack dates d (dates.card + 1) :=
      streakBack_ge dates (dates.card + 1) k d hall
        (by have := run_le_card dates d k hall; omega)
    calc k ≤ streakBack dates d (dates.card + 1) := h2
      _ ≤ dates.sup (fun x => streakBack dates x (dates.card + 1)) :=
        Finset.le_sup (f := fun x => streakBack dates x (dates.card + 1)) hd
  · intro hpos
    have hne : dates.Nonempty := by
      by_contra h
      rw [Finset.not_nonempty_iff_eq_empty] at h
      have : (calculate_streak timestamps tzOffset today).2 = 0 := by
        show longestStreak dates = 0
        simp [longestStreak, h]
      omega
    obtain ⟨d, hd, hsup⟩ := Finset.exists_mem_eq_sup dates hne
      (fun x => streakBack dates x (dates.card + 1))
    refine ⟨d, hd, ?_⟩
    intro i hi
    have hi' : i < streakBack dates d (dates.card + 1) := by
      have hrw : (calculate_streak timestamps tzOffset today).2 =
          streakBack dates d (dates.card + 1) := hsup
      omega
    exact streakBack_mem dates (dates.card + 1) d i hi'

/-- Witness for C4: three activities on days 0, 1 and 2 (offset 0) give a
longest streak of at least 3. -/
theorem c4_witness : 3 ≤ (calculate_streak [0, 1440, 2880] 0 2).2 :=
  (c4_streak [0, 1440, 2880] 0 2).2.1 2 3 (by decide) (by decide)

end FocusFlow
